import Mathlib

/-!
Shallow embedding of `src/check_sensitive_file.py` (a filename-based
access-control hook: it reads one JSON object from stdin, classifies the
`file_path` field against a fixed denylist of sensitive filenames, and
emits one JSON decision object on stdout).

Modelling conventions:
* Python strings are Lean `String`s (`List Char` underneath).
* `str.lower()` is modelled on the ASCII range (`pyCharLower`).  Every
  denylist entry is ASCII or caseless CJK, so lowering an entry is the
  identity outside ASCII; the embedding applies the same folding to both
  sides of the comparison, exactly as the source does.
* `pathlib.Path(p).name` is modelled with POSIX semantics (the script's
  `#!/usr/bin/env python3` environment): only `/` separates components,
  empty and `.` components are dropped, and the name is the last
  remaining component (so trailing slashes are ignored and `\` is an
  ordinary character).
* `main` is modelled as a pure function `main_decide` from the outcome of
  decoding/parsing stdin (`RawInput`) to the emitted `Decision`.
-/

/-- Python `str.lower()` restricted to the ASCII letters, applied
characterwise (the only cased characters occurring in the denylist). -/
def pyCharLower (c : Char) : Char :=
  if 65 ≤ c.toNat ∧ c.toNat ≤ 90 then Char.ofNat (c.toNat + 32) else c

/-- Python `s.lower()` for a whole string. -/
def pyLower (s : String) : String := ⟨s.data.map pyCharLower⟩

/-- The `SENSITIVE_FILES` constant of `check_sensitive_file.py`,
verbatim and in source order. -/
def SENSITIVE_FILES : List String := [
  ".env",
  ".env.local",
  ".env.production",
  ".env.development",
  "config.json",
  "secrets.json",
  "credentials.json",
  "api_keys.json",
  "private_key.pem",
  "id_rsa",
  "id_rsa.pub",
  ".ssh/id_rsa",
  ".ssh/id_rsa.pub",
  "password.txt",
  "passwords.txt",
  "secret.txt",
  "secrets.txt",
  "database.yml",
  "db_config.json",
  ".aws/credentials",
  ".aws/config",
  "private.key",
  "secret.key",
  "token.txt",
  "重要資訊.txt"]

/-- Helper for splitting at `/`: returns the component the head of the
list belongs to, and the remaining components. -/
def splitSepAux : List Char → List Char × List (List Char)
  | [] => ([], [])
  | c :: cs =>
    if c = '/' then ([], (splitSepAux cs).1 :: (splitSepAux cs).2)
    else ((c :: (splitSepAux cs).1), (splitSepAux cs).2)

/-- Split a character list at every `/` (the POSIX separator); the
separators themselves are dropped and empty segments are kept, so the
result is always nonempty. -/
def splitSep (l : List Char) : List (List Char) :=
  (splitSepAux l).1 :: (splitSepAux l).2

/-- The path components `pathlib` keeps: empty segments (from repeated,
leading or trailing slashes) and `.` segments are discarded. -/
def pathComponents (l : List Char) : List (List Char) :=
  (splitSep l).filter (fun c => !c.isEmpty && !(c == ['.']))

/-- The final path component, or `[]` when there is none
(root, empty, or only `.` segments). -/
def listName (l : List Char) : List Char :=
  ((pathComponents l).getLast?).getD []

/-- `pathlib.Path(s).name` under POSIX rules. -/
def posixName (s : String) : String := ⟨listName s.data⟩

/-- `get_filename_from_path` from `check_sensitive_file.py`: empty guard,
then `Path(file_path).name`. -/
def get_filename_from_path (file_path : String) : String :=
  if file_path = "" then "" else posixName file_path

/-- `is_sensitive_file` from `check_sensitive_file.py`: empty names are
never sensitive; otherwise the lowered name is compared for equality
against each lowered denylist entry. -/
def is_sensitive_file (filename : String) : Bool :=
  if filename = "" then false
  else
    let filename_lower := pyLower filename
    SENSITIVE_FILES.any (fun sensitive_file => filename_lower == pyLower sensitive_file)

/-- The classifier of the spec: `is_sensitive_file` composed with
`get_filename_from_path` (the composition performed by `main`). -/
def classify (p : String) : Bool := is_sensitive_file (get_filename_from_path p)

/-- Parsed JSON values (`json.loads` results); numbers are modelled as
integers, which covers every number the claims exercise. -/
inductive JsonValue where
  | null : JsonValue
  | bool (b : Bool) : JsonValue
  | num (n : Int) : JsonValue
  | str (s : String) : JsonValue
  | arr (elts : List JsonValue) : JsonValue
  | obj (fields : List (String × JsonValue)) : JsonValue

/-- The decision object `main` serialises to stdout: a `permission`
string and an optional `user_message`. -/
structure Decision where
  permission : String
  user_message : Option String
deriving DecidableEq

/-- The outcome of reading and parsing stdin, the only data `main`'s
behaviour depends on: the bytes fail UTF-8 decoding (with the decode
error's text), fail JSON parsing (with the parse error's text), or parse
to a JSON value. -/
inductive RawInput where
  | notUtf8 (desc : String) : RawInput
  | notJson (desc : String) : RawInput
  | json (v : JsonValue) : RawInput

/-- Python truthiness (`if not file_path`) of a parsed JSON value. -/
def pyTruthy : JsonValue → Bool
  | JsonValue.null => false
  | JsonValue.bool b => b
  | JsonValue.num n => n != 0
  | JsonValue.str s => !(s == "")
  | JsonValue.arr elts => !elts.isEmpty
  | JsonValue.obj fields => !fields.isEmpty

/-- Whether a parsed JSON value is a string (the only `file_path` type
`Path()` accepts). -/
def isStr : JsonValue → Bool
  | JsonValue.str _ => true
  | _ => false

/-- Python type name of a parsed JSON value, as it appears in runtime
error texts. -/
def pyTypeName : JsonValue → String
  | JsonValue.null => "NoneType"
  | JsonValue.bool _ => "bool"
  | JsonValue.num _ => "int"
  | JsonValue.str _ => "str"
  | JsonValue.arr _ => "list"
  | JsonValue.obj _ => "dict"

/-- `dict.get(key)` on the dict `json.loads` builds from a JSON object:
when a key is repeated, the last binding wins. -/
def pyGetLast (fields : List (String × JsonValue)) (key : String) : Option JsonValue :=
  ((fields.filter (fun kv => kv.fst == key)).getLast?).map Prod.snd

/-- The denial message built by the f-string at line 127 of the source. -/
def denyMessage (filename : String) : String :=
  "無法讀取敏感檔案：" ++ filename ++ "。此檔案包含敏感資訊，為保護您的資料安全，已阻止讀取。"

/-- The parse-failure message of line 101 (`str(e)` abstracted as `d`). -/
def jsonErrMsg (d : String) : String := "JSON 解析錯誤: " ++ d

/-- The catch-all failure message of line 142 (`str(e)` abstracted). -/
def internalErrMsg (d : String) : String := "檢查過程中發生錯誤: " ++ d

/-- Stand-in for `str(e)` of the AttributeError raised by `data.get`
when the parsed JSON is not an object; the exact runtime text is
immaterial to every claim (only the line-142 prefix and non-emptiness
matter), but its shape is kept. -/
def attrErrText (v : JsonValue) : String :=
  pyTypeName v ++ " object has no attribute get"

/-- Stand-in for `str(e)` of the TypeError raised by `Path(file_path)`
on a truthy non-string; as above, only the prefix and non-emptiness are
ever used. -/
def pathTypeErrText (v : JsonValue) : String :=
  "argument should be a str or an os.PathLike object, not " ++ pyTypeName v

/-- `main` from `check_sensitive_file.py`, as a function from the stdin
decode/parse outcome to the emitted decision.  Branches, in source
order: UTF-8 decode failure is caught by the outer handler (line 138);
JSON parse failure by the inner one (line 97); a non-object parse makes
`data.get` raise, caught at line 138; a falsy `file_path` (absent key
included, via the `""` default) allows with no message; a truthy
non-string makes `Path()` raise, caught at line 138; a truthy string is
classified, giving deny-with-message or plain allow. -/
def main_decide : RawInput → Decision
  | RawInput.notUtf8 d => ⟨"allow", some (internalErrMsg d)⟩
  | RawInput.notJson d => ⟨"allow", some (jsonErrMsg d)⟩
  | RawInput.json (JsonValue.obj fields) =>
    let file_path := (pyGetLast fields ("file_path")).getD (JsonValue.str "")
    if pyTruthy file_path then
      match file_path with
      | JsonValue.str s =>
        let filename := get_filename_from_path s
        if is_sensitive_file filename then
          ⟨"deny", some (denyMessage filename)⟩
        else
          ⟨"allow", none⟩
      | v => ⟨"allow", some (internalErrMsg (pathTypeErrText v))⟩
    else
      ⟨"allow", none⟩
  | RawInput.json v => ⟨"allow", some (internalErrMsg (attrErrText v))⟩

/-- The inputs on which `main` takes an error branch (decode failure,
parse failure, non-object JSON, or a truthy non-string `file_path`) —
exactly the branches that attach a diagnostic message to an `allow`. -/
def isErrorInput : RawInput → Bool
  | RawInput.notUtf8 _ => true
  | RawInput.notJson _ => true
  | RawInput.json (JsonValue.obj fields) =>
    let file_path := (pyGetLast fields ("file_path")).getD (JsonValue.str "")
    pyTruthy file_path && !(isStr file_path)
  | RawInput.json _ => true

/-- One character of `json.dumps` string escaping (`ensure_ascii=False`):
quote, backslash and control characters are escaped, everything else is
emitted as is. -/
def jsonEscapeChar (c : Char) : String :=
  if c = '"' then "\\\""
  else if c = '\\' then "\\\\"
  else if c = '\n' then "\\n"
  else if c = '\r' then "\\r"
  else if c = '\t' then "\\t"
  else if c = '\x08' then "\\b"
  else if c = '\x0c' then "\\f"
  else if c.toNat < 32 then
    "\\u00" ++ String.singleton (Char.ofNat (if c.toNat / 16 < 10 then 48 + c.toNat / 16 else 87 + c.toNat / 16))
      ++ String.singleton (Char.ofNat (if c.toNat % 16 < 10 then 48 + c.toNat % 16 else 87 + c.toNat % 16))
  else String.singleton c

/-- `json.dumps` escaping of a whole string. -/
def jsonEscape (s : String) : String :=
  s.data.foldr (fun c acc => jsonEscapeChar c ++ acc) ""

/-- `json.dumps(result, ensure_ascii=False)` for the dicts `main`
builds: insertion order puts `permission` first, then `user_message`
when present; default separators use `": "` and `", "`. -/
def renderDecision (d : Decision) : String :=
  match d.user_message with
  | none =>
    "\x7b\"permission\": \"" ++ jsonEscape d.permission ++ "\"\x7d"
  | some m =>
    "\x7b\"permission\": \"" ++ jsonEscape d.permission
      ++ "\", \"user_message\": \"" ++ jsonEscape m ++ "\"\x7d"

/-- The full observable behaviour of one process run: the UTF-8 text
written to stdout as a function of the stdin parse outcome. -/
def processOutput (i : RawInput) : String := renderDecision (main_decide i)

/-- `SENSITIVE_FILES` with the four separator-containing entries
(`.ssh/id_rsa`, `.ssh/id_rsa.pub`, `.aws/credentials`, `.aws/config`)
removed — the refinement target of the dead-entry claim. -/
def SENSITIVE_FILES_core : List String := [
  ".env",
  ".env.local",
  ".env.production",
  ".env.development",
  "config.json",
  "secrets.json",
  "credentials.json",
  "api_keys.json",
  "private_key.pem",
  "id_rsa",
  "id_rsa.pub",
  "password.txt",
  "passwords.txt",
  "secret.txt",
  "secrets.txt",
  "database.yml",
  "db_config.json",
  "private.key",
  "secret.key",
  "token.txt",
  "重要資訊.txt"]

/-- `is_sensitive_file` recomputed over the pruned list. -/
def is_sensitive_file_core (filename : String) : Bool :=
  if filename = "" then false
  else
    let filename_lower := pyLower filename
    SENSITIVE_FILES_core.any (fun sensitive_file => filename_lower == pyLower sensitive_file)

/-- The classifier recomputed over the pruned list. -/
def classify_core (p : String) : Bool :=
  is_sensitive_file_core (get_filename_from_path p)

/-! ### Character-level facts about `pyCharLower` -/

theorem char_toNat_ofNat {m : Nat} (h : m < 55296) : (Char.ofNat m).toNat = m := by
  unfold Char.ofNat
  rw [dif_pos (Or.inl h : m.isValidChar)]
  rfl

theorem toNat_pyCharLower_of_upper {c : Char} (h : 65 ≤ c.toNat ∧ c.toNat ≤ 90) :
    (pyCharLower c).toNat = c.toNat + 32 := by
  unfold pyCharLower
  rw [if_pos h]
  exact char_toNat_ofNat (by omega)

/-- `pyCharLower` can only produce a character below code 65 from that
same character; in particular `/` (47) and `.` (46) are both fixed and
never hit. -/
theorem pyCharLower_eq_iff_of_lt {c d : Char} (hd : d.toNat < 65) :
    pyCharLower c = d ↔ c = d := by
  by_cases hc : 65 ≤ c.toNat ∧ c.toNat ≤ 90
  · have ht := toNat_pyCharLower_of_upper hc
    constructor
    · intro h
      exfalso
      rw [h] at ht
      omega
    · intro h
      exfalso
      rw [h] at hc
      omega
  · unfold pyCharLower
    rw [if_neg hc]

theorem slash_mem_map_lower (l : List Char) :
    ('/') ∈ l.map pyCharLower ↔ ('/') ∈ l := by
  rw [List.mem_map]
  constructor
  · rintro ⟨a, ha, hl⟩
    rwa [(pyCharLower_eq_iff_of_lt (by decide)).mp hl] at ha
  · intro h
    exact ⟨'/', h, (pyCharLower_eq_iff_of_lt (by decide)).mpr rfl⟩

/-! ### Splitting at `/` -/

theorem splitSepAux_no_slash {x : List Char} {l : List Char}
    (h : x = (splitSepAux l).1 ∨ x ∈ (splitSepAux l).2) : ('/') ∉ x := by
  induction l generalizing x with
  | nil =>
    simp only [splitSepAux] at h
    rcases h with h | h
    · subst h; simp
    · simp at h
  | cons c cs ih =>
    simp only [splitSepAux] at h
    by_cases hc : c = '/'
    · rw [if_pos hc] at h
      rcases h with h | h
      · subst h; simp
      · rw [List.mem_cons] at h
        rcases h with h | h
        · exact ih (Or.inl h)
        · exact ih (Or.inr h)
    · rw [if_neg hc] at h
      rcases h with h | h
      · subst h
        intro hm
        rw [List.mem_cons] at hm
        rcases hm with hm | hm
        · exact hc hm.symm
        · exact ih (Or.inl rfl) hm
      · exact ih (Or.inr h)

theorem mem_splitSep_no_slash {x : List Char} {l : List Char}
    (h : x ∈ splitSep l) : ('/') ∉ x := by
  rw [splitSep, List.mem_cons] at h
  rcases h with h | h
  · exact splitSepAux_no_slash (Or.inl h)
  · exact splitSepAux_no_slash (Or.inr h)

theorem splitSepAux_append_sep (x y : List Char) :
    splitSepAux (x ++ '/' :: y) = ((splitSepAux x).1, (splitSepAux x).2 ++ splitSep y) := by
  induction x with
  | nil => simp [splitSepAux, splitSep]
  | cons c cs ih =>
    by_cases hc : c = '/'
    · simp [splitSepAux, if_pos hc, ih, splitSep]
    · simp [splitSepAux, if_neg hc, ih]

theorem splitSep_append_sep (x y : List Char) :
    splitSep (x ++ '/' :: y) = splitSep x ++ splitSep y := by
  simp [splitSep, splitSepAux_append_sep]

theorem splitSepAux_no_slash_eq {l : List Char} (h : ('/') ∉ l) :
    splitSepAux l = (l, []) := by
  induction l with
  | nil => rfl
  | cons c cs ih =>
    have hc : c ≠ '/' := fun hc => h (hc ▸ List.mem_cons_self c cs)
    have hcs : ('/') ∉ cs := fun hm => h (List.mem_cons_of_mem c hm)
    simp [splitSepAux, if_neg hc, ih hcs]

theorem splitSep_no_slash {l : List Char} (h : ('/') ∉ l) : splitSep l = [l] := by
  simp [splitSep, splitSepAux_no_slash_eq h]

theorem splitSepAux_map_lower (l : List Char) :
    splitSepAux (l.map pyCharLower)
      = ((splitSepAux l).1.map pyCharLower, (splitSepAux l).2.map (List.map pyCharLower)) := by
  induction l with
  | nil => rfl
  | cons c cs ih =>
    by_cases hc : c = '/'
    · rw [List.map_cons]
      simp only [splitSepAux,
        if_pos ((pyCharLower_eq_iff_of_lt (by decide)).mpr hc), if_pos hc, ih]
      simp [splitSep]
    · rw [List.map_cons]
      simp only [splitSepAux,
        if_neg (fun h => hc ((pyCharLower_eq_iff_of_lt (by decide)).mp h)), if_neg hc, ih]
      simp

theorem splitSep_map_lower (l : List Char) :
    splitSep (l.map pyCharLower) = (splitSep l).map (List.map pyCharLower) := by
  simp [splitSep, splitSepAux_map_lower]

/-! ### The extracted name: no separator, congruence under lowering -/

theorem keepComponent_map_lower (x : List Char) :
    (!(x.map pyCharLower).isEmpty && !((x.map pyCharLower) == ['.']))
      = (!x.isEmpty && !(x == ['.'])) := by
  cases x with
  | nil => rfl
  | cons c cs =>
    simp only [List.map_cons, List.isEmpty_cons, Bool.not_false, Bool.true_and]
    have : (pyCharLower c :: cs.map pyCharLower == ['.']) = (c :: cs == ['.']) := by
      by_cases h : c :: cs = ['.']
      · rcases List.cons_eq_cons.mp h with ⟨hc, hcs⟩
        subst hc
        subst hcs
        decide
      · have h2 : pyCharLower c :: cs.map pyCharLower ≠ ['.'] := by
          intro he
          rw [List.cons_eq_cons] at he
          rcases he with ⟨he1, he2⟩
          rw [List.map_eq_nil_iff] at he2
          exact h (by rw [(pyCharLower_eq_iff_of_lt (by decide)).mp he1, he2])
        rw [beq_eq_false_iff_ne.mpr h2, beq_eq_false_iff_ne.mpr h]
    rw [this]

theorem pathComponents_map_lower (l : List Char) :
    pathComponents (l.map pyCharLower) = (pathComponents l).map (List.map pyCharLower) := by
  unfold pathComponents
  rw [splitSep_map_lower, List.filter_map]
  congr 1
  apply List.filter_congr
  intro x _
  exact keepComponent_map_lower x

theorem listName_map_lower (l : List Char) :
    listName (l.map pyCharLower) = (listName l).map pyCharLower := by
  unfold listName
  rw [pathComponents_map_lower, List.getLast?_map]
  cases (pathComponents l).getLast? <;> rfl

theorem listName_no_slash (l : List Char) : ('/') ∉ listName l := by
  unfold listName
  cases h : (pathComponents l).getLast? with
  | none => simp
  | some c =>
    have hc : c ∈ pathComponents l := List.mem_of_getLast?_eq_some h
    have : c ∈ splitSep l := List.mem_of_mem_filter hc
    exact mem_splitSep_no_slash this

theorem get_filename_no_slash (p : String) :
    ('/') ∉ (get_filename_from_path p).data := by
  unfold get_filename_from_path
  split
  · simp
  · exact listName_no_slash p.data

theorem pyLower_eq_empty_iff (s : String) : pyLower s = "" ↔ s = "" := by
  constructor
  · intro h
    have := congrArg String.data h
    simp only [pyLower] at this
    rw [List.map_eq_nil_iff] at this
    exact String.ext this
  · intro h
    rw [h]
    rfl

theorem get_filename_congr_lower {g f : String} (h : pyLower g = pyLower f) :
    pyLower (get_filename_from_path g) = pyLower (get_filename_from_path f) := by
  have hd : g.data.map pyCharLower = f.data.map pyCharLower := congrArg String.data h
  unfold get_filename_from_path
  by_cases hg : g = ""
  · have hf : f = "" := by
      rw [← pyLower_eq_empty_iff, ← h, hg]
      rfl
    rw [if_pos hg, if_pos hf]
  · have hf : f ≠ "" := by
      intro hf
      exact hg (by rw [← pyLower_eq_empty_iff, h, hf]; rfl)
    rw [if_neg hg, if_neg hf]
    apply String.ext
    show (listName g.data).map pyCharLower = (listName f.data).map pyCharLower
    rw [← listName_map_lower, ← listName_map_lower, hd]

theorem is_sensitive_congr_lower {x y : String} (h : pyLower x = pyLower y) :
    is_sensitive_file x = is_sensitive_file y := by
  unfold is_sensitive_file
  by_cases hx : x = ""
  · have hy : y = "" := by rw [← pyLower_eq_empty_iff, ← h, hx]; rfl
    rw [if_pos hx, if_pos hy]
  · have hy : y ≠ "" := fun hy => hx (by rw [← pyLower_eq_empty_iff, h, hy]; rfl)
    rw [if_neg hx, if_neg hy]
    simp only [h]

/-- The classifier only sees the case-folded path: two paths with the
same `lower()` image classify identically. -/
theorem classify_congr_lower {g f : String} (h : pyLower g = pyLower f) :
    classify g = classify f :=
  is_sensitive_congr_lower (get_filename_congr_lower h)

/-! ### Prefixing with directories, trailing separators -/

theorem listName_single {nm : List Char} (h1 : ('/') ∉ nm) (h2 : nm ≠ [])
    (h3 : nm ≠ ['.']) : listName nm = nm := by
  unfold listName pathComponents
  rw [splitSep_no_slash h1]
  have hP : (!nm.isEmpty && !(nm == ['.'])) = true := by
    rw [Bool.and_eq_true, Bool.not_eq_true', Bool.not_eq_true',
      List.isEmpty_eq_false, beq_eq_false_iff_ne]
    exact ⟨h2, h3⟩
  simp [List.filter, hP]

theorem get_filename_self {nm : String} (h1 : ('/') ∉ nm.data) (h2 : nm ≠ "")
    (h3 : nm ≠ ".") : get_filename_from_path nm = nm := by
  unfold get_filename_from_path
  rw [if_neg h2]
  apply String.ext
  show listName nm.data = nm.data
  apply listName_single h1
  · intro h
    exact h2 (String.ext h)
  · intro h
    exact h3 (String.ext h)

theorem get_filename_append_sep (dir : String) {nm : String}
    (h1 : ('/') ∉ nm.data) (h2 : nm ≠ "") (h3 : nm ≠ ".") :
    get_filename_from_path (dir ++ "/" ++ nm) = nm := by
  unfold get_filename_from_path
  have hd : (dir ++ "/" ++ nm).data = dir.data ++ '/' :: nm.data := by
    simp
  rw [if_neg (by
    intro h
    have := congrArg String.data h
    rw [hd] at this
    simp at this)]
  apply String.ext
  show listName (dir ++ "/" ++ nm).data = nm.data
  rw [hd]
  unfold listName pathComponents
  rw [splitSep_append_sep, List.filter_append, splitSep_no_slash h1]
  have hP : (!nm.data.isEmpty && !(nm.data == ['.'])) = true := by
    rw [Bool.and_eq_true, Bool.not_eq_true', Bool.not_eq_true',
      List.isEmpty_eq_false, beq_eq_false_iff_ne]
    exact ⟨fun h => h2 (String.ext h), fun h => h3 (String.ext h)⟩
  simp [List.filter, hP, List.getLast?_concat]

theorem listName_append_slash (l : List Char) :
    listName (l ++ ['/']) = listName l := by
  unfold listName pathComponents
  rw [show l ++ ['/'] = l ++ '/' :: [] from rfl, splitSep_append_sep,
    List.filter_append]
  simp [splitSep, splitSepAux, List.filter]

theorem classify_append_slash (p : String) :
    classify (p ++ "/") = classify p := by
  by_cases hp : p = ""
  · subst hp
    decide
  · unfold classify get_filename_from_path
    rw [if_neg hp, if_neg (by
      intro h
      have := congrArg String.data h
      simp at this)]
    have : posixName (p ++ "/") = posixName p := by
      apply String.ext
      show listName (p ++ "/").data = listName p.data
      rw [String.data_append]
      exact listName_append_slash p.data
    rw [this]

/-! ### Entries containing a separator are dead -/

theorem lower_ne_of_slash (x e : String) (hx : ('/') ∉ x.data)
    (he : ('/') ∈ e.data) : (pyLower x == pyLower e) = false := by
  rw [beq_eq_false_iff_ne]
  intro hEq
  have h1 : ('/') ∈ (pyLower e).data := (slash_mem_map_lower e.data).mpr he
  rw [← hEq] at h1
  exact hx ((slash_mem_map_lower x.data).mp h1)

theorem is_sensitive_eq_core (x : String) (hx : ('/') ∉ x.data) :
    is_sensitive_file x = is_sensitive_file_core x := by
  unfold is_sensitive_file is_sensitive_file_core
  by_cases hxe : x = ""
  · rw [if_pos hxe, if_pos hxe]
  · rw [if_neg hxe, if_neg hxe]
    simp only [SENSITIVE_FILES, SENSITIVE_FILES_core, List.any_cons, List.any_nil]
    rw [lower_ne_of_slash x (".ssh/id_rsa") hx (by decide),
      lower_ne_of_slash x (".ssh/id_rsa.pub") hx (by decide),
      lower_ne_of_slash x (".aws/credentials") hx (by decide),
      lower_ne_of_slash x (".aws/config") hx (by decide)]
    simp only [Bool.false_or]

/-! ### Branch structure of the driver -/

theorem append_ne_empty_left (a d : String) (ha : a ≠ "") : a ++ d ≠ "" := by
  intro h
  have h2 : (a ++ d).data = [] := congrArg String.data h
  rw [String.data_append] at h2
  rcases List.append_eq_nil.mp h2 with ⟨h3, _⟩
  exact ha (String.ext h3)

theorem main_decide_obj_falsy (fields : List (String × JsonValue))
    (h : pyTruthy ((pyGetLast fields ("file_path")).getD (JsonValue.str "")) = false) :
    main_decide (RawInput.json (JsonValue.obj fields)) = ⟨"allow", none⟩ := by
  simp [main_decide, h]

theorem main_decide_obj_nonstr (fields : List (String × JsonValue))
    (fp : JsonValue)
    (hfp : (pyGetLast fields ("file_path")).getD (JsonValue.str "") = fp)
    (ht : pyTruthy fp = true) (hs : isStr fp = false) :
    main_decide (RawInput.json (JsonValue.obj fields))
      = ⟨"allow", some (internalErrMsg (pathTypeErrText fp))⟩ := by
  cases fp <;> simp_all [main_decide, isStr, pyTruthy]

theorem main_decide_str (fields : List (String × JsonValue)) (s : String)
    (h : (pyGetLast fields ("file_path")).getD (JsonValue.str "") = JsonValue.str s) :
    main_decide (RawInput.json (JsonValue.obj fields))
      = if s = "" then ⟨"allow", none⟩
        else if is_sensitive_file (get_filename_from_path s) then
          ⟨"deny", some (denyMessage (get_filename_from_path s))⟩
        else ⟨"allow", none⟩ := by
  by_cases hs : s = "" <;> simp [main_decide, h, pyTruthy, hs]

/-- Every run lands in one of three shapes: a plain allow, an allow with
a message on an error input, or a deny with a message. -/
theorem main_decide_shape (i : RawInput) :
    main_decide i = ⟨"allow", none⟩
    ∨ (∃ m, main_decide i = ⟨"allow", some m⟩ ∧ isErrorInput i = true)
    ∨ (∃ m, main_decide i = ⟨"deny", some m⟩) := by
  cases i with
  | notUtf8 d => exact Or.inr (Or.inl ⟨_, rfl, rfl⟩)
  | notJson d => exact Or.inr (Or.inl ⟨_, rfl, rfl⟩)
  | json v =>
    cases v with
    | null => exact Or.inr (Or.inl ⟨_, rfl, rfl⟩)
    | bool b => exact Or.inr (Or.inl ⟨_, rfl, rfl⟩)
    | num n => exact Or.inr (Or.inl ⟨_, rfl, rfl⟩)
    | str s => exact Or.inr (Or.inl ⟨_, rfl, rfl⟩)
    | arr elts => exact Or.inr (Or.inl ⟨_, rfl, rfl⟩)
    | obj fields =>
      cases hfp : (pyGetLast fields ("file_path")).getD (JsonValue.str "") with
      | null =>
        exact Or.inl (main_decide_obj_falsy fields (by rw [hfp]; rfl))
      | bool b =>
        cases b with
        | false => exact Or.inl (main_decide_obj_falsy fields (by rw [hfp]; rfl))
        | true =>
          refine Or.inr (Or.inl ⟨_, main_decide_obj_nonstr fields _ hfp rfl rfl, ?_⟩)
          simp [isErrorInput, hfp, pyTruthy, isStr]
      | num n =>
        by_cases hn : n = 0
        · subst hn
          exact Or.inl (main_decide_obj_falsy fields (by rw [hfp]; rfl))
        · refine Or.inr (Or.inl ⟨_, main_decide_obj_nonstr fields _ hfp ?_ rfl, ?_⟩)
          · simp [pyTruthy, hn]
          · simp [isErrorInput, hfp, pyTruthy, isStr, hn]
      | str s =>
        rw [main_decide_str fields s hfp]
        by_cases hs : s = ""
        · rw [if_pos hs]
          exact Or.inl rfl
        · rw [if_neg hs]
          by_cases hsen : is_sensitive_file (get_filename_from_path s) = true
          · rw [if_pos hsen]
            exact Or.inr (Or.inr ⟨_, rfl⟩)
          · rw [if_neg hsen]
            exact Or.inl rfl
      | arr elts =>
        cases elts with
        | nil => exact Or.inl (main_decide_obj_falsy fields (by rw [hfp]; rfl))
        | cons e es =>
          refine Or.inr (Or.inl ⟨_, main_decide_obj_nonstr fields _ hfp rfl rfl, ?_⟩)
          simp [isErrorInput, hfp, pyTruthy, isStr]
      | obj l =>
        cases l with
        | nil => exact Or.inl (main_decide_obj_falsy fields (by rw [hfp]; rfl))
        | cons e es =>
          refine Or.inr (Or.inl ⟨_, main_decide_obj_nonstr fields _ hfp rfl rfl, ?_⟩)
          simp [isErrorInput, hfp, pyTruthy, isStr]

/-! ### Claims -/

/-- C1 counterexample: the entry `.aws/credentials` of SENSITIVE_FILES
itself classifies as false, because the extracted base name is
`credentials`, which is not in the list — refuting the claim that
`classify` returns true on every entry of the list. -/
theorem C1_counterexample :
    (".aws/credentials") ∈ SENSITIVE_FILES ∧ classify (".aws/credentials") = false := by
  constructor
  · decide
  · decide

/-- C1 (amended): for every filename `f` in SENSITIVE_FILES other than
`.aws/credentials` and `.aws/config`, and every casing variant `g` of
`f` (any string with the same `lower()` image), `classify g` returns
true.  (The two excluded entries classify false: their base names
`credentials` and `config` are not themselves listed.  The `.ssh/`
entries survive only because `id_rsa` and `id_rsa.pub` are also listed
on their own.) -/
theorem C1_sensitive_entries_all_casings :
    ∀ f ∈ SENSITIVE_FILES, f ≠ (".aws/credentials") → f ≠ (".aws/config") →
      ∀ g : String, pyLower g = pyLower f → classify g = true := by
  intro f hf h1 h2 g hg
  rw [classify_congr_lower hg]
  fin_cases hf <;>
    first
      | decide
      | exact absurd rfl h1
      | exact absurd rfl h2

theorem C1_witness :
    (".env") ∈ SENSITIVE_FILES ∧ classify (".ENV") = true :=
  ⟨by decide,
    C1_sensitive_entries_all_casings (".env") (by decide) (by decide) (by decide)
      (".ENV") (by decide)⟩

/-- C2 counterexample: with POSIX path semantics a backslash is an
ordinary filename character, so `classify "a\b\.env"` is false,
refuting the claim that it returns true. -/
theorem C2_counterexample : classify ("a\\b\\.env") = false := by decide

/-- C2 (amended): `classify` is invariant under prefixing with
forward-slash directory segments: prefixing any directory string to a
separator-free base name (nonempty and not `.`) leaves the
classification unchanged, and `classify "a/b/.env"` and
`classify ".env"` are both true.  Backslash separators are NOT
normalised under POSIX `pathlib`: `classify "a\b\.env"` is false. -/
theorem C2_forward_slash_prefix_invariance :
    (∀ (dir nm : String), ('/') ∉ nm.data → nm ≠ "" → nm ≠ "." →
        classify (dir ++ "/" ++ nm) = classify nm)
    ∧ classify ("a/b/.env") = true
    ∧ classify (".env") = true
    ∧ classify ("a\\b\\.env") = false := by
  refine ⟨?_, by decide, by decide, by decide⟩
  intro dir nm h1 h2 h3
  unfold classify
  rw [get_filename_append_sep dir h1 h2 h3, get_filename_self h1 h2 h3]

theorem C2_witness :
    ('/') ∉ (".env" : String).data ∧ classify ("a/b" ++ "/" ++ ".env") = classify (".env") :=
  ⟨by decide,
    (C2_forward_slash_prefix_invariance).1 ("a/b") (".env") (by decide) (by decide) (by decide)⟩

/-- C3 counterexample: `.env/` ends in the separator, yet `classify`
returns true on it (pathlib strips trailing slashes instead of
producing an empty base name), refuting the claim that every path
ending in a separator classifies false. -/
theorem C3_counterexample :
    (".env/") = ".env" ++ "/" ∧ classify (".env/") = true := by
  constructor
  · rfl
  · decide

/-- C3 (amended): the empty path classifies false, but a trailing
separator is stripped by pathlib rather than producing an empty base
name: `classify (p ++ "/") = classify p` for every `p`.  A path of
directory segments only, such as `a/b/`, still classifies false —
because its last segment is not sensitive, not because the base name is
empty — while `.env/` classifies true. -/
theorem C3_trailing_slash_stripped :
    classify ("") = false
    ∧ (∀ p : String, classify (p ++ "/") = classify p)
    ∧ classify ("a/b/") = false
    ∧ classify (".env/") = true := by
  refine ⟨by decide, classify_append_slash, by decide, by decide⟩

theorem C3_witness :
    classify ("x/notes.txt" ++ "/") = classify ("x/notes.txt") :=
  (C3_trailing_slash_stripped).2.1 ("x/notes.txt")

/-- C4 counterexample: an input object whose `file_path` is the number
`1` — present but not a string — yields allow WITH a diagnostic
message (the TypeError from `Path(1)` is caught at line 138), refuting
the claim that a non-string `file_path` gives allow with no message. -/
theorem C4_counterexample :
    (main_decide (RawInput.json (JsonValue.obj [("file_path", JsonValue.num 1)]))).permission
        = "allow"
    ∧ (main_decide (RawInput.json (JsonValue.obj [("file_path", JsonValue.num 1)]))).user_message
        ≠ none := by
  constructor
  · rfl
  · decide

/-- C4 (amended): an input JSON object whose `file_path` is absent or
falsy (empty string, null, false, 0, empty array or object) yields
allow with no `user_message`; a present, truthy, non-string `file_path`
instead raises internally and yields allow WITH a nonempty diagnostic
message. -/
theorem C4_missing_or_falsy_file_path :
    ∀ fields : List (String × JsonValue),
      (pyTruthy ((pyGetLast fields ("file_path")).getD (JsonValue.str "")) = false →
        main_decide (RawInput.json (JsonValue.obj fields)) = ⟨"allow", none⟩)
      ∧ (pyTruthy ((pyGetLast fields ("file_path")).getD (JsonValue.str "")) = true →
          isStr ((pyGetLast fields ("file_path")).getD (JsonValue.str "")) = false →
          (main_decide (RawInput.json (JsonValue.obj fields))).permission = "allow"
          ∧ ∃ m, (main_decide (RawInput.json (JsonValue.obj fields))).user_message = some m
              ∧ m ≠ "") := by
  intro fields
  constructor
  · exact main_decide_obj_falsy fields
  · intro ht hs
    rw [main_decide_obj_nonstr fields _ rfl ht hs]
    exact ⟨rfl, _, rfl, append_ne_empty_left _ _ (by decide)⟩

theorem C4_witness :
    pyTruthy ((pyGetLast [(("other" : String), JsonValue.str "x")] ("file_path")).getD
        (JsonValue.str "")) = false
    ∧ main_decide (RawInput.json (JsonValue.obj [(("other" : String), JsonValue.str "x")]))
        = ⟨"allow", none⟩ :=
  ⟨by decide, (C4_missing_or_falsy_file_path [(("other" : String), JsonValue.str "x")]).1 (by decide)⟩

/-- C5: for a well-formed input (a JSON object whose `file_path` reads
as a string `s`, the absent-key default included), the decision is
deny exactly when the base filename of `s` is case-insensitively in
SENSITIVE_FILES; every deny carries a `user_message` containing that
filename, and otherwise the decision is a plain allow. -/
theorem C5_deny_iff_sensitive :
    ∀ (fields : List (String × JsonValue)) (s : String),
      (pyGetLast fields ("file_path")).getD (JsonValue.str "") = JsonValue.str s →
      (((main_decide (RawInput.json (JsonValue.obj fields))).permission = "deny")
          ↔ is_sensitive_file (get_filename_from_path s) = true)
      ∧ ((main_decide (RawInput.json (JsonValue.obj fields))).permission = "deny" →
          ∃ m, (main_decide (RawInput.json (JsonValue.obj fields))).user_message = some m
            ∧ ∃ pre suf, m.data = pre ++ (get_filename_from_path s).data ++ suf)
      ∧ (is_sensitive_file (get_filename_from_path s) = false →
          main_decide (RawInput.json (JsonValue.obj fields)) = ⟨"allow", none⟩) := by
  intro fields s h
  rw [main_decide_str fields s h]
  by_cases hs : s = ""
  · rw [if_pos hs]
    subst hs
    refine ⟨⟨fun hpd => absurd hpd (by decide), fun hsen => absurd hsen (by decide)⟩,
      fun hpd => absurd hpd (by decide), fun _ => rfl⟩
  · rw [if_neg hs]
    by_cases hsen : is_sensitive_file (get_filename_from_path s) = true
    · rw [if_pos hsen]
      refine ⟨⟨fun _ => hsen, fun _ => rfl⟩, fun _ => ?_, fun hf => ?_⟩
      · exact ⟨denyMessage (get_filename_from_path s), rfl,
          ("無法讀取敏感檔案：").data,
          ("。此檔案包含敏感資訊，為保護您的資料安全，已阻止讀取。").data,
          by simp [denyMessage]⟩
      · rw [hf] at hsen
        exact absurd hsen (by decide)
    · rw [if_neg hsen]
      have hsen' : is_sensitive_file (get_filename_from_path s) = false := by
        rwa [Bool.not_eq_true] at hsen
      refine ⟨⟨fun hpd => absurd hpd (by decide), fun h2 => ?_⟩,
        fun hpd => absurd hpd (by decide), fun _ => rfl⟩
      rw [hsen'] at h2
      exact absurd h2 (by decide)

theorem C5_witness :
    ((main_decide (RawInput.json
        (JsonValue.obj [(("file_path" : String), JsonValue.str "/home/user/.env")]))).permission
          = "deny")
      ↔ is_sensitive_file (get_filename_from_path ("/home/user/.env")) = true :=
  (C5_deny_iff_sensitive [(("file_path" : String), JsonValue.str "/home/user/.env")]
    ("/home/user/.env") (by rfl)).1

/-- C6: every error input — undecodable bytes, unparsable JSON, or an
input that makes processing raise internally (non-object JSON, truthy
non-string `file_path`) — yields permission allow with a nonempty
diagnostic `user_message`.  `main_decide` being a total Lean function
models that no exception escapes and the process always returns
normally (exit status 0). -/
theorem C6_errors_fail_open :
    ∀ i : RawInput, isErrorInput i = true →
      (main_decide i).permission = "allow"
      ∧ ∃ m, (main_decide i).user_message = some m ∧ m ≠ "" := by
  intro i hi
  cases i with
  | notUtf8 d => exact ⟨rfl, _, rfl, append_ne_empty_left _ _ (by decide)⟩
  | notJson d => exact ⟨rfl, _, rfl, append_ne_empty_left _ _ (by decide)⟩
  | json v =>
    cases v with
    | null => exact ⟨rfl, _, rfl, append_ne_empty_left _ _ (by decide)⟩
    | bool b => exact ⟨rfl, _, rfl, append_ne_empty_left _ _ (by decide)⟩
    | num n => exact ⟨rfl, _, rfl, append_ne_empty_left _ _ (by decide)⟩
    | str s => exact ⟨rfl, _, rfl, append_ne_empty_left _ _ (by decide)⟩
    | arr elts => exact ⟨rfl, _, rfl, append_ne_empty_left _ _ (by decide)⟩
    | obj fields =>
      simp only [isErrorInput, Bool.and_eq_true, Bool.not_eq_true'] at hi
      obtain ⟨ht, hs⟩ := hi
      rw [main_decide_obj_nonstr fields _ rfl ht hs]
      exact ⟨rfl, _, rfl, append_ne_empty_left _ _ (by decide)⟩

theorem C6_witness :
    isErrorInput (RawInput.notJson ("Expecting value: line 1 column 1 (char 0)")) = true
    ∧ ((main_decide (RawInput.notJson ("Expecting value: line 1 column 1 (char 0)"))).permission
          = "allow"
        ∧ ∃ m, (main_decide (RawInput.notJson
            ("Expecting value: line 1 column 1 (char 0)"))).user_message = some m ∧ m ≠ "") :=
  ⟨by decide, C6_errors_fail_open (RawInput.notJson ("Expecting value: line 1 column 1 (char 0)"))
    (by decide)⟩

/-- C7: on every input the emitted object has a `permission` that is
exactly `allow` or `deny`, and it has a `user_message` only in the
error branches and the denial branch — never in a plain allow. -/
theorem C7_output_shape :
    ∀ i : RawInput,
      ((main_decide i).permission = "allow" ∨ (main_decide i).permission = "deny")
      ∧ ((main_decide i).user_message.isSome = true →
          isErrorInput i = true ∨ (main_decide i).permission = "deny") := by
  intro i
  rcases main_decide_shape i with h | ⟨m, h, he⟩ | ⟨m, h⟩
  · rw [h]
    exact ⟨Or.inl rfl, fun hs => absurd hs (by decide)⟩
  · rw [h]
    exact ⟨Or.inl rfl, fun _ => Or.inl he⟩
  · rw [h]
    exact ⟨Or.inr rfl, fun _ => Or.inr rfl⟩

theorem C7_witness :
    isErrorInput (RawInput.notUtf8 ("invalid start byte")) = true
    ∨ (main_decide (RawInput.notUtf8 ("invalid start byte"))).permission = "deny" :=
  (C7_output_shape (RawInput.notUtf8 ("invalid start byte"))).2 (by decide)

/-- C8: matching is exact equality of the lowered base name against the
lowered entries, never substring matching: whenever the lowered base
filename of `p` is not among the lowered entries, `classify p` is
false — in particular on the near-misses `myconfig.json.bak`,
`config.json.bak` and `myconfig.json`. -/
theorem C8_exact_match_only :
    (∀ p : String,
        pyLower (get_filename_from_path p) ∉ SENSITIVE_FILES.map pyLower →
        classify p = false)
    ∧ classify ("myconfig.json.bak") = false
    ∧ classify ("config.json.bak") = false
    ∧ classify ("myconfig.json") = false := by
  refine ⟨?_, by decide, by decide, by decide⟩
  intro p hp
  unfold classify is_sensitive_file
  split
  · rfl
  · show SENSITIVE_FILES.any
        (fun sensitive_file => pyLower (get_filename_from_path p) == pyLower sensitive_file)
          = false
    rw [List.any_eq_false]
    intro x hx hbeq
    rw [beq_iff_eq] at hbeq
    exact hp (hbeq ▸ List.mem_map_of_mem pyLower hx)

theorem C8_witness :
    pyLower (get_filename_from_path ("notes.txt")) ∉ SENSITIVE_FILES.map pyLower
    ∧ classify ("notes.txt") = false :=
  ⟨by decide, (C8_exact_match_only).1 ("notes.txt") (by decide)⟩

/-- C9: the decision procedure is deterministic — the rendered output
is a pure function of the parsed input, with no other state, so equal
inputs give byte-identical output. -/
theorem C9_deterministic :
    ∀ i j : RawInput, i = j → processOutput i = processOutput j := by
  intro i j h
  rw [h]

theorem C9_witness :
    processOutput (RawInput.json
        (JsonValue.obj [(("file_path" : String), JsonValue.str "/home/user/.env")]))
      = processOutput (RawInput.json
        (JsonValue.obj [(("file_path" : String), JsonValue.str "/home/user/.env")])) :=
  C9_deterministic _ _ rfl

/-- C10: the four denylist entries containing a separator never affect
the classification — the classifier over the full SENSITIVE_FILES list
equals the classifier over the list with those entries removed, on
every input path, because an extracted base name never contains `/`. -/
theorem C10_separator_entries_dead :
    ∀ p : String, classify p = classify_core p := by
  intro p
  unfold classify classify_core
  exact is_sensitive_eq_core _ (get_filename_no_slash p)

theorem C10_witness :
    classify (".aws/credentials") = classify_core (".aws/credentials") :=
  C10_separator_entries_dead (".aws/credentials")
